import Mathlib

/-!
Shallow embedding of `docqa/data/feature_extractors/coref_feats_flat_veiws.py`
(class `CorefFeatsFlatViews`), the coreference flat-views feature extractor.

Conventions of the embedding:
* Python (unbounded) integers are `Int`; non-negative counts/indices are `Nat`.
* The numpy `int32` arrays are `List Int` whose stores go through `wrap32`
  (two's-complement wrap-around at 32 bits), mirroring the cast that numpy
  performs when a Python int is assigned into an `np.int32` array.
* 2-D numpy arrays are rectangular `List (List Int)`; `shape2` recovers the
  numpy shape of such a (non-ragged) array from the nested-list representation.
* A parsed-document dict is a structure with one `Option` field per key the
  code (or the documented external interface) may look up; `none` models an
  absent key.
* A Python function that can raise becomes a function into `Except`.
-/

/-- Two's-complement wrap-around of an integer at 32 bits: the value actually
stored when a Python int is assigned into an `np.int32` array. -/
def wrap32 (x : Int) : Int := (x + 2 ^ 31) % 2 ^ 32 - 2 ^ 31

/-- The numpy shape of a rectangular 2-D nested list. -/
def shape2 (m : List (List Int)) : Nat × Nat := (m.length, (m.headD []).length)

/-- `np.expand_dims(x, axis)` for a 1-D array `x` and `axis ∈ {0, 1}`
(axis 0 gives shape `[1, n]`, any other axis value models axis 1, `[n, 1]`). -/
def expandDims (axis : Nat) (x : List Int) : List (List Int) :=
  if axis = 0 then [x] else x.map (fun v => [v])

/-- `a.repeat(n, axis)` on a 2-D array: every element along `axis` is repeated
`n` times consecutively. -/
def npRepeat (m : List (List Int)) (n : Nat) (axis : Nat) : List (List Int) :=
  if axis = 0 then m.flatMap (List.replicate n) else m.map (fun r => r.flatMap (List.replicate n))

/-- `np.concatenate(ms, axis)` on a list of 2-D arrays. -/
def npConcat (ms : List (List (List Int))) (axis : Nat) : List (List Int) :=
  if axis = 0 then ms.flatten
  else
    match ms with
    | [] => []
    | m0 :: rest => rest.foldl (fun acc m => acc.zipWith (· ++ ·) m) m0

/-- A sentence of the parsed document: only its token list is consumed
(the code reads `len(sent["tokens"])`). -/
structure Sentence where
  tokens : List String
deriving DecidableEq, Repr

/-- A coreference mention: a half-open token range `[start, end)` over the
flattened document token sequence (`mention["start"]`, `mention["end"]`). -/
structure Mention where
  start : Nat
  end_ : Nat
deriving DecidableEq, Repr

/-- A coreference cluster: a dict that may or may not carry a `"mentions"`
list (the code guards with `if "mentions" not in coref_cluster: continue`). -/
structure CorefCluster where
  mentions : Option (List Mention)
deriving DecidableEq, Repr

instance : Inhabited CorefCluster := ⟨⟨none⟩⟩

/-- The parsed-document input dict. One `Option` field per key that is either
read by the code (`"sentences"`, `"coref_clusters"`) or named by the external
interface contract (`"coreference_clusters"`); `none` models an absent key.
The code itself never reads `coreference_clusters`. -/
structure ParseInputs where
  sentences : Option (List Sentence)
  coref_clusters : Option (List CorefCluster)
  coreference_clusters : Option (List CorefCluster)
deriving DecidableEq, Repr

/-- Errors an extraction call can raise. -/
inductive ExtractError
  | valueError (msg : String)
  | indexError
  | assertionError (featShape maskShape : Nat × Nat)
deriving DecidableEq, Repr

/-- The spec's construction-time error channel. The given constructor never
raises, so no constructor of this type is ever produced by the embedding. -/
inductive ConfigurationError
  | nonPositiveMaxViews
deriving DecidableEq, Repr

/-- Python-dict insertion into an association list: an existing key keeps its
position and gets the new value, a new key is appended. -/
def dictInsert (d : List (String × Int)) (k : String) (v : Int) : List (String × Int) :=
  if d.any (fun p => p.1 = k) then d.map (fun p => if p.1 = k then (k, v) else p)
  else d ++ [(k, v)]

/-- The extractor's state: the constructor parameters plus the vocabulary
dict `_vocab_feat_name2id`. -/
structure CorefFeatsFlatViews where
  use_mask : Bool
  labels_start_id : Int
  max_coref_clusters : Nat
  max_views : Nat
  namespace_ : String
  views_axis : Nat
  pad_views : Bool
  vocab_feat_name2id : List (String × Int)
deriving DecidableEq, Repr

namespace CorefFeatsFlatViews

/-- `CorefFeatsFlatViews.__init__`. The vocabulary is built by the dict
comprehension on line 35 of the source,
`{"C{0:02d}": i + labels_start_id for i in range(max_coref_clusters)}`:
note that the key string is never passed through `.format(i)`, so every
iteration inserts the same literal key `C{0:02d}` (written here with
escapes). The constructor performs no parameter validation. -/
def init (max_views : Nat) (max_coref_clusters : Nat) (labels_start_id : Int := 1)
    (nsp : String := "coref_feats") (pad_views : Bool := false)
    (views_axis : Nat := 0) (use_mask : Bool := false) : CorefFeatsFlatViews :=
  { use_mask := use_mask
    labels_start_id := labels_start_id
    max_coref_clusters := max_coref_clusters
    max_views := max_views
    namespace_ := nsp
    views_axis := views_axis
    pad_views := pad_views
    vocab_feat_name2id :=
      (List.range max_coref_clusters).foldl
        (fun d i => dictInsert d "C\x7b0:02d\x7d" ((i : Int) + labels_start_id)) [] }

/-- `__init__` seen through the spec's claimed error channel: the source
constructor contains no validation and no `raise`, so it always succeeds. -/
def initChecked (max_views : Nat) (max_coref_clusters : Nat) (labels_start_id : Int := 1)
    (nsp : String := "coref_feats") (pad_views : Bool := false)
    (views_axis : Nat := 0) (use_mask : Bool := false) :
    Except ConfigurationError CorefFeatsFlatViews :=
  .ok (init max_views max_coref_clusters labels_start_id nsp pad_views views_axis use_mask)

/-- `set_vocab_feats_name2id_ids(offset)`: every vocabulary id is shifted by
`offset - labels_start_id`, then `labels_start_id` is set to `offset`. -/
def set_vocab_feats_name2id_ids (st : CorefFeatsFlatViews) (offset : Int) :
    CorefFeatsFlatViews :=
  { st with
    vocab_feat_name2id :=
      st.vocab_feat_name2id.map (fun p => (p.1, p.2 - st.labels_start_id + offset))
    labels_start_id := offset }

end CorefFeatsFlatViews

/-- Modelled from the spec: `trim_feats_list` (imported from
`docqa.data.feature_extractors.utils`, a module not among the given sources).
Per the spec, it "selects and truncates to at most `max_views` views" and in
the one fully specified call site "simply returns the input unchanged when it
already fits". -/
def trim_feats_list (views : List (List Int)) (max_views : Nat) : List (List Int) :=
  if views.length ≤ max_views then views else views.take max_views

/-- The tuple annotation built inside the selection expression:
`(cl_id, len(cl.get("mentions", [])), cl)` for each cluster. -/
def annotateClusters (cs : List CorefCluster) : List (Nat × Nat × CorefCluster) :=
  cs.enum.map (fun p => (p.1, (p.2.mentions.getD []).length, p.2))

/-- The comparator `key=lambda x: (x[1], x[0])` of the `sorted` call, i.e.
lexicographic (mention count, original index). -/
def sortKeyLe (a b : Nat × Nat × CorefCluster) : Bool :=
  a.2.1 < b.2.1 || (a.2.1 = b.2.1 && a.1 ≤ b.1)

/-- Cluster selection (lines 78–81): when more than `max_coref_clusters`
clusters are present, sort the annotated clusters by (mention count, original
index) and keep the clusters of the first `max_coref_clusters` tuples;
otherwise the list is left as is. -/
def selectClusters (cs : List CorefCluster) (mx : Nat) : List CorefCluster :=
  if cs.length > mx then (((annotateClusters cs).mergeSort sortKeyLe).take mx).map (·.2.2)
  else cs

/-- The inner write loop for one mention (`for tkn_id in range(start, end)`);
each store into the `int32` array goes through `wrap32`. -/
def applyMention (arr : List Int) (label : Int) (m : Mention) : List Int :=
  (List.range' m.start (m.end_ - m.start)).foldl (fun a t => a.set t (wrap32 label)) arr

/-- The write loop for one cluster: skipped entirely when the cluster carries
no `"mentions"` key. -/
def applyCluster (arr : List Int) (label : Int) (c : CorefCluster) : List Int :=
  match c.mentions with
  | none => arr
  | some ms => ms.foldl (fun a m => applyMention a label m) arr

/-- The enumeration loop over the (selected) clusters, starting at enumeration
index `i`: cluster `i` gets label `labels_start_id + i + 1`. -/
def applyClustersFrom (s : Int) : List CorefCluster → Nat → List Int → List Int
  | [], _, arr => arr
  | c :: cs, i, arr =>
      applyClustersFrom s cs (i + 1) (applyCluster arr (s + (i : Int) + 1) c)

/-- Total token count: `sum(len(sent["tokens"]))` in sentence order. -/
def totalTokens (sents : List Sentence) : Nat :=
  sents.foldl (fun acc s => acc + s.tokens.length) 0

/-- Steps of `extract_features` from the construction of `src_feats`/mask
onwards: optional padding, optional mask substitution, and the final shape
assertion. -/
def finishExtract (st : CorefFeatsFlatViews) (feats mask : List (List Int)) :
    Except ExtractError (List (List Int) × List (List Int)) :=
  let p :=
    if st.pad_views ∧ st.max_views < (shape2 feats).2 then
      (npRepeat feats st.max_views st.views_axis, npRepeat mask st.max_views st.views_axis)
    else (feats, mask)
  let mask2 := if st.use_mask then p.1 else p.2
  if shape2 p.1 = shape2 mask2 then .ok (p.1, mask2)
  else .error (.assertionError (shape2 p.1) (shape2 mask2))

/-- The fully written `coref_feats_arr` (lines 72, 75–90): a zero background
array of length `n`, with the selected clusters' labels written over it when
the `"coref_clusters"` key is present. -/
def corefFeatsArr (st : CorefFeatsFlatViews) (oc : Option (List CorefCluster))
    (n : Nat) : List Int :=
  match oc with
  | none => List.replicate n 0
  | some coref_clusters =>
      applyClustersFrom st.labels_start_id
        (selectClusters coref_clusters st.max_coref_clusters) 0
        (List.replicate n 0)

/-- Lines 92–113 of `extract_features`: view stacking, padding, mask
substitution and the final shape assertion, applied to the single written
feature array and the all-ones mask. -/
def stackViews (st : CorefFeatsFlatViews) (n : Nat) (coref_feats_arr : List Int) :
    Except ExtractError (List (List Int) × List (List Int)) :=
  let sent_ids_mask : List Int := List.replicate n 1
  let src_feats := (trim_feats_list [coref_feats_arr] st.max_views).map
    (expandDims st.views_axis)
  if src_feats.length > 1 then
    finishExtract st (npConcat src_feats st.views_axis)
      (npRepeat (expandDims st.views_axis sent_ids_mask) src_feats.length st.views_axis)
  else
    match src_feats with
    | [] => .error .indexError
    | f :: _ => finishExtract st f [sent_ids_mask]

/-- `CorefFeatsFlatViews.extract_features` (lines 61–113). -/
def CorefFeatsFlatViews.extract_features (st : CorefFeatsFlatViews)
    (inputs : ParseInputs) : Except ExtractError (List (List Int) × List (List Int)) :=
  match inputs.sentences with
  | none => .error (.valueError "inputs must be a parse containing `tokens` field!")
  | some sents =>
      stackViews st (totalTokens sents)
        (corefFeatsArr st inputs.coref_clusters (totalTokens sents))

/-- Does cluster `c` cover token index `t` through one of its mentions? -/
def coversB (c : CorefCluster) (t : Nat) : Bool :=
  match c.mentions with
  | none => false
  | some ms => ms.any (fun m => decide (m.start ≤ t) && decide (t < m.end_))

instance instDecEqExcept {ε α : Type} [DecidableEq ε] [DecidableEq α] :
    DecidableEq (Except ε α)
  | .error e1, .error e2 =>
      if h : e1 = e2 then isTrue (congrArg Except.error h)
      else isFalse (fun hc => h (Except.error.inj hc))
  | .error _, .ok _ => isFalse (fun hc => Except.noConfusion hc)
  | .ok _, .error _ => isFalse (fun hc => Except.noConfusion hc)
  | .ok a1, .ok a2 =>
      if h : a1 = a2 then isTrue (congrArg Except.ok h)
      else isFalse (fun hc => h (Except.ok.inj hc))

lemma coversB_of_mentions_none {c : CorefCluster} (h : c.mentions = none) (t : Nat) :
    coversB c t = false := by
  unfold coversB
  rw [h]

lemma wrap32_eq_self {x : Int} (h0 : 0 ≤ x) (h1 : x < 2 ^ 31) : wrap32 x = x := by
  have h31 : (2 : Int) ^ 31 = 2147483648 := by norm_num
  have h32 : (2 : Int) ^ 32 = 4294967296 := by norm_num
  unfold wrap32
  rw [h31, h32, Int.emod_eq_of_lt (by omega) (by omega)]
  omega

lemma foldl_set_length (v : Int) :
    ∀ (ts : List Nat) (arr : List Int),
      (ts.foldl (fun a t => a.set t v) arr).length = arr.length
  | [], _ => rfl
  | t :: ts, arr => by
      rw [List.foldl_cons, foldl_set_length v ts, List.length_set]

lemma getD_set_zero (arr : List Int) (u t : Nat) (v : Int) :
    (arr.set u v).getD t 0 = if u = t ∧ u < arr.length then v else arr.getD t 0 := by
  rw [List.getD_eq_getElem?_getD, List.getD_eq_getElem?_getD, List.getElem?_set]
  by_cases he : u = t
  · subst he
    by_cases hl : u < arr.length
    · simp [hl]
    · have hnone : arr[u]? = none := by
        rw [List.getElem?_eq_none_iff]
        omega
      simp [hl, hnone]
  · simp [he]

lemma foldl_set_getD (v : Int) :
    ∀ (ts : List Nat) (arr : List Int) (t : Nat),
      (ts.foldl (fun a u => a.set u v) arr).getD t 0
        = if t ∈ ts ∧ t < arr.length then v else arr.getD t 0
  | [], arr, t => by simp
  | u :: ts, arr, t => by
      rw [List.foldl_cons, foldl_set_getD v ts, List.length_set, getD_set_zero]
      simp only [List.mem_cons]
      by_cases hm : t ∈ ts
      · by_cases hl : t < arr.length
        · rw [if_pos ⟨hm, hl⟩, if_pos ⟨Or.inr hm, hl⟩]
        · rw [if_neg (fun hc => hl hc.2),
            if_neg (fun hc : u = t ∧ u < arr.length => hl (hc.1 ▸ hc.2)),
            if_neg (fun hc => hl hc.2)]
      · by_cases he : u = t
        · subst he
          by_cases hl : u < arr.length
          · rw [if_neg (fun hc => hm hc.1), if_pos ⟨rfl, hl⟩, if_pos ⟨Or.inl rfl, hl⟩]
          · rw [if_neg (fun hc => hm hc.1), if_neg (fun hc => hl hc.2),
              if_neg (fun hc => hl hc.2)]
        · rw [if_neg (fun hc => hm hc.1), if_neg (fun hc => he hc.1),
            if_neg (fun hc => hc.1.elim (fun h' => he h'.symm) hm)]

lemma applyMention_length (arr : List Int) (l : Int) (m : Mention) :
    (applyMention arr l m).length = arr.length :=
  foldl_set_length (wrap32 l) _ arr

lemma applyMention_getD (arr : List Int) (l : Int) (m : Mention) (t : Nat) :
    (applyMention arr l m).getD t 0
      = if (m.start ≤ t ∧ t < m.end_) ∧ t < arr.length then wrap32 l
        else arr.getD t 0 := by
  rw [applyMention, foldl_set_getD]
  exact if_congr (and_congr_left' (by rw [List.mem_range'_1]; omega)) rfl rfl

lemma foldl_applyMention_length (l : Int) :
    ∀ (ms : List Mention) (arr : List Int),
      (ms.foldl (fun a m => applyMention a l m) arr).length = arr.length
  | [], _ => rfl
  | m :: ms, arr => by
      rw [List.foldl_cons, foldl_applyMention_length l ms, applyMention_length]

lemma applyCluster_length (arr : List Int) (l : Int) (c : CorefCluster) :
    (applyCluster arr l c).length = arr.length := by
  unfold applyCluster
  cases c.mentions with
  | none => rfl
  | some ms => exact foldl_applyMention_length l ms arr

lemma foldl_applyMention_getD (l : Int) :
    ∀ (ms : List Mention) (arr : List Int) (t : Nat),
      (ms.foldl (fun a m => applyMention a l m) arr).getD t 0
        = if (ms.any (fun m => decide (m.start ≤ t) && decide (t < m.end_))) = true
              ∧ t < arr.length then wrap32 l
          else arr.getD t 0
  | [], arr, t => by simp
  | m :: ms, arr, t => by
      rw [List.foldl_cons, foldl_applyMention_getD l ms, applyMention_length,
        applyMention_getD]
      simp only [List.any_cons, Bool.or_eq_true, Bool.and_eq_true, decide_eq_true_eq]
      by_cases hl : t < arr.length
      · by_cases hms : (ms.any (fun m => decide (m.start ≤ t) && decide (t < m.end_))) = true
        · rw [if_pos ⟨hms, hl⟩, if_pos ⟨Or.inr (by simpa using hms), hl⟩]
        · rw [if_neg (fun hc => hms hc.1)]
          by_cases hm : m.start ≤ t ∧ t < m.end_
          · rw [if_pos ⟨hm, hl⟩, if_pos ⟨Or.inl hm, hl⟩]
          · rw [if_neg (fun hc => hm hc.1),
              if_neg (fun hc => hc.1.elim hm (fun h' => hms (by simpa using h')))]
      · rw [if_neg (fun hc => hl hc.2), if_neg (fun hc => hl hc.2),
          if_neg (fun hc => hl hc.2)]

lemma applyCluster_getD (arr : List Int) (l : Int) (c : CorefCluster) (t : Nat) :
    (applyCluster arr l c).getD t 0
      = if coversB c t = true ∧ t < arr.length then wrap32 l else arr.getD t 0 := by
  unfold applyCluster coversB
  cases c.mentions with
  | none => simp
  | some ms => exact foldl_applyMention_getD l ms arr t

lemma applyClustersFrom_length (s : Int) :
    ∀ (cs : List CorefCluster) (i : Nat) (arr : List Int),
      (applyClustersFrom s cs i arr).length = arr.length
  | [], _, _ => rfl
  | c :: cs, i, arr => by
      rw [applyClustersFrom, applyClustersFrom_length s cs, applyCluster_length]

lemma applyClustersFrom_getD_of_no_cover (s : Int) :
    ∀ (cs : List CorefCluster) (i : Nat) (arr : List Int) (t : Nat),
      (∀ j, j < cs.length → coversB (cs.getD j default) t = false) →
      (applyClustersFrom s cs i arr).getD t 0 = arr.getD t 0
  | [], _, _, _, _ => rfl
  | c :: cs, i, arr, t, h => by
      rw [applyClustersFrom,
        applyClustersFrom_getD_of_no_cover s cs (i + 1) _ t
          (fun j hj => h (j + 1) (by simpa using Nat.succ_lt_succ hj)),
        applyCluster_getD,
        if_neg (fun hc => by
          have h0 := h 0 (Nat.succ_pos _)
          simp only [List.getD_cons_zero] at h0
          exact absurd hc.1 (by rw [h0]; exact Bool.false_ne_true))]

lemma applyClustersFrom_getD_of_last_cover (s : Int) :
    ∀ (cs : List CorefCluster) (i : Nat) (arr : List Int) (t j : Nat),
      j < cs.length →
      coversB (cs.getD j default) t = true →
      (∀ k, k < cs.length → j < k → coversB (cs.getD k default) t = false) →
      t < arr.length →
      (applyClustersFrom s cs i arr).getD t 0 = wrap32 (s + ((i + j : Nat) : Int) + 1)
  | [], _, _, _, j, hj, _, _, _ => absurd hj (Nat.not_lt_zero j)
  | c :: cs, i, arr, t, 0, _, hcov, hlater, ht => by
      simp only [List.getD_cons_zero] at hcov
      rw [applyClustersFrom,
        applyClustersFrom_getD_of_no_cover s cs (i + 1) _ t
          (fun k hk => by
            have := hlater (k + 1) (by simpa using Nat.succ_lt_succ hk) (Nat.succ_pos k)
            simpa using this),
        applyCluster_getD, if_pos ⟨hcov, ht⟩]
      norm_num
  | c :: cs, i, arr, t, j + 1, hj, hcov, hlater, ht => by
      simp only [List.getD_cons_succ] at hcov
      rw [applyClustersFrom,
        applyClustersFrom_getD_of_last_cover s cs (i + 1) _ t j
          (by simpa using Nat.lt_of_succ_lt_succ hj) hcov
          (fun k hk hjk => by
            have := hlater (k + 1) (by simpa using Nat.succ_lt_succ hk)
              (Nat.succ_lt_succ hjk)
            simpa using this)
          (by rw [applyCluster_length]; exact ht)]
      congr 1
      push_cast
      ring

lemma applyClustersFrom_getD_cases (s : Int) :
    ∀ (cs : List CorefCluster) (i : Nat) (arr : List Int) (t : Nat),
      (applyClustersFrom s cs i arr).getD t 0 = arr.getD t 0 ∨
      ∃ j, j < cs.length ∧ coversB (cs.getD j default) t = true ∧
        (applyClustersFrom s cs i arr).getD t 0 = wrap32 (s + ((i + j : Nat) : Int) + 1)
  | [], _, _, _ => Or.inl rfl
  | c :: cs, i, arr, t => by
      rw [applyClustersFrom]
      rcases applyClustersFrom_getD_cases s cs (i + 1) (applyCluster arr (s + (i : Int) + 1) c) t with
        h | ⟨j, hj, hcov, hval⟩
      · rw [h, applyCluster_getD]
        by_cases hc : coversB c t = true ∧ t < arr.length
        · refine Or.inr ⟨0, Nat.succ_pos _, by simpa using hc.1, ?_⟩
          rw [if_pos hc]
          norm_num
        · rw [if_neg hc]
          exact Or.inl rfl
      · refine Or.inr ⟨j + 1, by simpa using Nat.succ_lt_succ hj, by simpa using hcov, ?_⟩
        rw [hval]
        congr 1
        push_cast
        ring

lemma applyClustersFrom_set_empty_mentions (s : Int) :
    ∀ (cs : List CorefCluster) (i : Nat) (i0 : Nat) (arr : List Int),
      i < cs.length →
      (cs.getD i default).mentions = none →
      applyClustersFrom s cs i0 arr
        = applyClustersFrom s (cs.set i ⟨some []⟩) i0 arr
  | [], i, _, _, hi, _ => absurd hi (Nat.not_lt_zero i)
  | c :: cs, 0, i0, arr, _, hnone => by
      simp only [List.getD_cons_zero] at hnone
      rw [List.set_cons_zero, applyClustersFrom, applyClustersFrom]
      have h1 : applyCluster arr (s + (i0 : Int) + 1) c = arr := by
        unfold applyCluster
        rw [hnone]
      have h2 : applyCluster arr (s + (i0 : Int) + 1) ⟨some []⟩ = arr := rfl
      rw [h1, h2]
  | c :: cs, i + 1, i0, arr, hi, hnone => by
      simp only [List.getD_cons_succ] at hnone
      rw [List.set_cons_succ, applyClustersFrom, applyClustersFrom,
        applyClustersFrom_set_empty_mentions s cs i (i0 + 1) _
          (Nat.lt_of_succ_lt_succ hi) hnone]

lemma corefFeatsArr_length (st : CorefFeatsFlatViews) (oc : Option (List CorefCluster))
    (n : Nat) : (corefFeatsArr st oc n).length = n := by
  unfold corefFeatsArr
  cases oc with
  | none => exact List.length_replicate n 0
  | some cs => rw [applyClustersFrom_length, List.length_replicate]

lemma stackViews_axis0 (st : CorefFeatsFlatViews) (n : Nat) (arr : List Int)
    (harr : arr.length = n) (haxis : st.views_axis = 0) (hpad : st.pad_views = false)
    (hmv : 1 ≤ st.max_views) :
    stackViews st n arr
      = .ok ([arr], if st.use_mask then [arr] else [List.replicate n 1]) := by
  have htrim : trim_feats_list [arr] st.max_views = [arr] := by
    unfold trim_feats_list
    rw [if_pos (by simpa using hmv)]
  simp only [stackViews, htrim, haxis, expandDims, if_pos rfl, List.map_cons, List.map_nil]
  rw [if_neg (by simp)]
  simp only [finishExtract, hpad, Bool.false_eq_true, false_and, if_neg (fun hc : False ∧ _ => hc.1)]
  cases hum : st.use_mask with
  | true =>
      rw [if_pos rfl]
      simp
  | false =>
      rw [if_pos (by simp [shape2, harr])]
      simp

/-- The spec's end-to-end example document: 2 sentences of 3 tokens each, one
coreference cluster with one mention spanning tokens `[1,3)`, supplied under
the `"coref_clusters"` key that the code reads. -/
def exampleDoc : ParseInputs :=
  { sentences := some [⟨["t0", "t1", "t2"]⟩, ⟨["t3", "t4", "t5"]⟩]
    coref_clusters := some [⟨some [⟨1, 3⟩]⟩]
    coreference_clusters := none }

/-- The spec's end-to-end example configuration: `labels_start_id=1`,
`max_coref_clusters=5`, `max_views=1`, `pad_views=False`, `views_axis=0`,
`use_mask=False`. -/
def exampleExtractor : CorefFeatsFlatViews :=
  CorefFeatsFlatViews.init 1 5 1 "coref_feats" false 0 false

/-- A two-token document with no coreference clusters. -/
def twoTokenDoc : ParseInputs :=
  { sentences := some [⟨["t0", "t1"]⟩]
    coref_clusters := none
    coreference_clusters := none }

/-- The example configuration with `views_axis = 1`. -/
def axisOneExtractor : CorefFeatsFlatViews :=
  CorefFeatsFlatViews.init 1 5 1 "coref_feats" false 1 false

/-- A three-token document with no coreference clusters. -/
def threeTokenDoc : ParseInputs :=
  { sentences := some [⟨["t0", "t1", "t2"]⟩]
    coref_clusters := none
    coreference_clusters := none }

/-- Configuration `pad_views=True`, `max_views=4`, `views_axis=0`,
`use_mask=False`. -/
def padViewsExtractor : CorefFeatsFlatViews :=
  CorefFeatsFlatViews.init 4 5 1 "coref_feats" true 0 false

/-- A three-token document whose single cluster (one mention covering tokens
`[0,2)`) is supplied under the spec's field name `"coreference_clusters"`,
while the `"coref_clusters"` key read by the code is absent. -/
def specFieldDoc : ParseInputs :=
  { sentences := some [⟨["t0", "t1", "t2"]⟩]
    coref_clusters := none
    coreference_clusters := some [⟨some [⟨0, 2⟩]⟩] }

/-- Clusters with mention counts `[3, 1, 2, 1]` (the spec's selection
example), distinguishable by their mention lists. -/
def exCl0 : CorefCluster := ⟨some [⟨0, 1⟩, ⟨1, 2⟩, ⟨2, 3⟩]⟩

def exCl1 : CorefCluster := ⟨some [⟨1, 2⟩]⟩

def exCl2 : CorefCluster := ⟨some [⟨0, 1⟩, ⟨4, 5⟩]⟩

def exCl3 : CorefCluster := ⟨some [⟨3, 4⟩]⟩

/-- C1: the claim says the final shape assertion never fires for any valid
configuration with `views_axis ∈ {0,1}`. It does fire: with `views_axis = 1`
and `use_mask = False`, the features are built as shape `[tokens, 1]` but the
mask is built as `np.array([sent_ids_mask])`, shape `[1, tokens]`, ignoring
`views_axis`; on a 2-token document the assertion raises with shapes
`(2, 1)` vs `(1, 2)`. -/
theorem extract_features_shape_assertion_fires :
    axisOneExtractor.extract_features twoTokenDoc
      = .error (.assertionError (2, 1) (1, 2)) := by
  decide

/-- C2: the vocabulary built by the constructor. The claim says
`max_coref_clusters = 2`, `labels_start_id = 1` gives two entries
`C00 ↦ 1, C01 ↦ 2`; the dict-comprehension key `"C{0:02d}"` is never
formatted, so every iteration overwrites the same literal key and the
vocabulary is the single entry `C{0:02d} ↦ 2`. -/
theorem init_vocab_single_unformatted_key :
    (CorefFeatsFlatViews.init 1 2 1).vocab_feat_name2id = [("C\x7b0:02d\x7d", 2)] ∧
    (CorefFeatsFlatViews.init 1 2 1).vocab_feat_name2id.length = 1 := by
  constructor <;> rfl

/-- C3: the claim says `pad_views=True, max_views=4` with one natural view
always yields view-axis length 4. The padding guard is
`max_views < src_feats.shape[1]`, i.e. it compares `max_views` against the
token count, so on a 3-token document (4 < 3 is false) no padding happens
and the view axis keeps length 1. -/
theorem extract_features_no_padding_short_document :
    padViewsExtractor.extract_features threeTokenDoc
      = .ok ([[0, 0, 0]], [[1, 1, 1]]) ∧
    (shape2 [[0, 0, 0]]).1 = 1 := by
  constructor <;> decide

/-- C4 counterexample: a document supplying its clusters under the field
named `"coreference_clusters"` (the name the claim and the spec's external
interface give). The code only reads `"coref_clusters"`, so the cluster is
ignored: although its mention covers tokens 0 and 1, the returned feature
tensor is all zeros and carries no nonzero label anywhere. -/
theorem extract_features_ignores_coreference_clusters_field :
    exampleExtractor.extract_features specFieldDoc = .ok ([[0, 0, 0]], [[1, 1, 1]]) ∧
    coversB ⟨some [⟨0, 2⟩]⟩ 0 = true := by
  constructor <;> decide

/-- C5: extraction on a document lacking the sentence list fails immediately
with a `ValueError`; however, its message names the `tokens` field (the
message is shared with `extract_features_raw`), not the `sentences` key
whose absence triggered it. -/
theorem extract_features_missing_sentences_error (st : CorefFeatsFlatViews)
    (oc occ : Option (List CorefCluster)) :
    st.extract_features ⟨none, oc, occ⟩
      = .error (.valueError "inputs must be a parse containing `tokens` field!") := rfl

/-- C6 counterexample: constructing with `max_views = 0` (non-positive) does
not raise; the constructor performs no validation and simply returns the
fully populated extractor state. -/
theorem initChecked_zero_max_views_succeeds :
    CorefFeatsFlatViews.initChecked 0 5 1 "coref_feats" false 0 false
      = .ok
        { use_mask := false
          labels_start_id := 1
          max_coref_clusters := 5
          max_views := 0
          namespace_ := "coref_feats"
          views_axis := 0
          pad_views := false
          vocab_feat_name2id := [("C\x7b0:02d\x7d", 5)] } := by
  decide

/-- C6 amended: construction never raises a `ConfigurationError`, not even
for a non-positive `max_views`; validation simply does not exist in the
constructor. -/
theorem initChecked_accepts_nonpositive_max_views (max_views max_coref_clusters : Nat)
    (labels_start_id : Int) (nsp : String) (pad_views : Bool) (views_axis : Nat)
    (use_mask : Bool) (_h : max_views < 1) :
    ∃ st, CorefFeatsFlatViews.initChecked max_views max_coref_clusters labels_start_id
        nsp pad_views views_axis use_mask = .ok st :=
  ⟨_, rfl⟩

/-- Witness for C6: instantiates the amended theorem at `max_views = 0`. -/
theorem initChecked_accepts_nonpositive_max_views_witness :
    (0 : Nat) < 1 ∧
    ∃ st, CorefFeatsFlatViews.initChecked 0 5 1 "coref_feats" false 0 false = .ok st :=
  ⟨by decide,
    initChecked_accepts_nonpositive_max_views 0 5 1 "coref_feats" false 0 false (by decide)⟩

/-- C8: the spec's end-to-end example. 6 tokens, one cluster with one mention
on `[1,3)`, label `labels_start_id + 0 + 1 = 2`: the features are
`[[0,2,2,0,0,0]]` and the mask `[[1,1,1,1,1,1]]`. -/
theorem extract_features_end_to_end_example :
    exampleExtractor.extract_features exampleDoc
      = .ok ([[0, 2, 2, 0, 0, 0]], [[1, 1, 1, 1, 1, 1]]) := by
  decide

/-- C9: rebasing the vocabulary twice with the same offset equals rebasing
once, for every starting state (hence every name-to-id mapping) and every
offset: the second call maps each id `v` to `v - offset + offset = v` and
re-records the same offset. -/
theorem set_vocab_feats_name2id_ids_idempotent (st : CorefFeatsFlatViews) (offset : Int) :
    (st.set_vocab_feats_name2id_ids offset).set_vocab_feats_name2id_ids offset
      = st.set_vocab_feats_name2id_ids offset := by
  unfold CorefFeatsFlatViews.set_vocab_feats_name2id_ids
  simp only [List.map_map]
  congr 1
  have hfun : ((fun p : String × Int => (p.1, p.2 - offset + offset)) ∘
      (fun p : String × Int => (p.1, p.2 - st.labels_start_id + offset)))
      = fun p : String × Int => (p.1, p.2 - st.labels_start_id + offset) := by
    funext p
    simp [Function.comp, Int.sub_add_cancel]
  rw [hfun]

/-- C4 amended: for a document supplying its clusters under the field the
code actually reads, `"coref_clusters"` (not the spec's
`"coreference_clusters"`), and a `views_axis = 0`, `pad_views = False`
configuration with `max_views ≥ 1`, every selected cluster's label
`labels_start_id + position + 1` is written at each token index covered by
one of its mentions; the position carries that nonzero label in the returned
feature tensor provided no later selected cluster also covers it
(last-write-wins) and the label fits in `int32`. -/
theorem extract_features_writes_selected_cluster_labels
    (st : CorefFeatsFlatViews) (inputs : ParseInputs) (sents : List Sentence)
    (cs : List CorefCluster) (i t : Nat)
    (hsents : inputs.sentences = some sents)
    (hcs : inputs.coref_clusters = some cs)
    (haxis : st.views_axis = 0)
    (hpad : st.pad_views = false)
    (hmv : 1 ≤ st.max_views)
    (hs0 : 0 ≤ st.labels_start_id)
    (hfit : st.labels_start_id + (i : Int) + 1 < 2 ^ 31)
    (hi : i < (selectClusters cs st.max_coref_clusters).length)
    (hcov : coversB ((selectClusters cs st.max_coref_clusters).getD i default) t = true)
    (hlater : ∀ k, k < (selectClusters cs st.max_coref_clusters).length → i < k →
        coversB ((selectClusters cs st.max_coref_clusters).getD k default) t = false)
    (ht : t < totalTokens sents) :
    ∃ feats mask, st.extract_features inputs = .ok (feats, mask) ∧
      (feats.headD []).getD t 0 = st.labels_start_id + (i : Int) + 1 ∧
      0 < st.labels_start_id + (i : Int) + 1 := by
  have harr : (corefFeatsArr st inputs.coref_clusters (totalTokens sents)).length
      = totalTokens sents := corefFeatsArr_length st _ _
  have hext : st.extract_features inputs
      = stackViews st (totalTokens sents)
          (corefFeatsArr st inputs.coref_clusters (totalTokens sents)) := by
    unfold CorefFeatsFlatViews.extract_features
    rw [hsents]
  rw [hext, stackViews_axis0 st (totalTokens sents) _ harr haxis hpad hmv]
  refine ⟨_, _, rfl, ?_, by omega⟩
  simp only [List.headD_cons]
  rw [hcs]
  unfold corefFeatsArr
  rw [applyClustersFrom_getD_of_last_cover st.labels_start_id
    (selectClusters cs st.max_coref_clusters) 0 _ t i hi hcov hlater
    (by rw [List.length_replicate]; exact ht)]
  rw [Nat.zero_add]
  exact wrap32_eq_self (by omega) hfit

/-- Witness for C4: the amended theorem applied to the end-to-end example
document, whose single selected cluster (position 0, label 2) covers token 1. -/
theorem extract_features_writes_selected_cluster_labels_witness :
    ∃ feats mask, exampleExtractor.extract_features exampleDoc = .ok (feats, mask) ∧
      (feats.headD []).getD 1 0 = exampleExtractor.labels_start_id + ((0 : Nat) : Int) + 1 ∧
      0 < exampleExtractor.labels_start_id + ((0 : Nat) : Int) + 1 :=
  extract_features_writes_selected_cluster_labels exampleExtractor exampleDoc
    [⟨["t0", "t1", "t2"]⟩, ⟨["t3", "t4", "t5"]⟩] [⟨some [⟨1, 3⟩]⟩] 0 1
    rfl rfl rfl rfl (by decide) (by decide) (by decide) (by decide) (by decide)
    (by decide) (by decide)

lemma sortKeyLe_trans (a b c : Nat × Nat × CorefCluster)
    (hab : sortKeyLe a b = true) (hbc : sortKeyLe b c = true) : sortKeyLe a c = true := by
  simp only [sortKeyLe, Bool.or_eq_true, Bool.and_eq_true, decide_eq_true_eq] at *
  omega

lemma sortKeyLe_total (a b : Nat × Nat × CorefCluster) :
    (sortKeyLe a b || sortKeyLe b a) = true := by
  simp only [sortKeyLe, Bool.or_eq_true, Bool.and_eq_true, decide_eq_true_eq]
  omega

lemma annotateClusters_length (cs : List CorefCluster) :
    (annotateClusters cs).length = cs.length := by
  unfold annotateClusters
  rw [List.length_map, List.enum_length]

unseal List.merge List.mergeSort in
/-- C7: selection when the cluster count exceeds the cap. General part: for
every cluster list and cap with `cap < count`, the retained clusters are the
cluster components of the first `cap` tuples of some ascending rearrangement
of all `(index, mention_count, cluster)` tuples, ordered by
(mention count, original index) lexicographically, and exactly `cap` are
retained. Concrete part: for mention counts `[3,1,2,1]` and cap 2 the
retained clusters are the ones at original indices 1 and 3. -/
theorem selectClusters_ascending_selection :
    (∀ (cs : List CorefCluster) (mx : Nat), mx < cs.length →
      ∃ l : List (Nat × Nat × CorefCluster),
        l.Perm (annotateClusters cs) ∧
        l.Pairwise (fun a b => a.2.1 < b.2.1 ∨ (a.2.1 = b.2.1 ∧ a.1 ≤ b.1)) ∧
        selectClusters cs mx = (l.take mx).map (·.2.2) ∧
        (l.take mx).length = mx) ∧
    selectClusters [exCl0, exCl1, exCl2, exCl3] 2 = [exCl1, exCl3] := by
  constructor
  · intro cs mx h
    refine ⟨(annotateClusters cs).mergeSort sortKeyLe, List.mergeSort_perm _ _, ?_, ?_, ?_⟩
    · exact (List.sorted_mergeSort sortKeyLe_trans sortKeyLe_total
        (annotateClusters cs)).imp (fun hab => by
          simpa only [sortKeyLe, Bool.or_eq_true, Bool.and_eq_true,
            decide_eq_true_eq] using hab)
    · unfold selectClusters
      rw [if_pos h]
    · rw [List.length_take, ((annotateClusters cs).mergeSort_perm sortKeyLe).length_eq,
        annotateClusters_length]
      omega
  · decide

/-- Witness for C7: the general part of the theorem applied to the concrete
example list (mention counts `[3,1,2,1]`) with cap 2. -/
theorem selectClusters_ascending_selection_witness :
    2 < ([exCl0, exCl1, exCl2, exCl3] : List CorefCluster).length ∧
    ∃ l : List (Nat × Nat × CorefCluster),
      l.Perm (annotateClusters [exCl0, exCl1, exCl2, exCl3]) ∧
      l.Pairwise (fun a b => a.2.1 < b.2.1 ∨ (a.2.1 = b.2.1 ∧ a.1 ≤ b.1)) ∧
      selectClusters [exCl0, exCl1, exCl2, exCl3] 2 = (l.take 2).map (·.2.2) ∧
      (l.take 2).length = 2 :=
  ⟨by decide, selectClusters_ascending_selection.1 [exCl0, exCl1, exCl2, exCl3] 2 (by decide)⟩

/-- C10: a selected cluster without a `"mentions"` field is skipped
(`continue`) but still occupies its enumeration position. Part 1: running the
write loop with that cluster replaced by one with an empty mention list gives
the identical feature array, so the skip writes nothing and leaves every
other cluster's position-based label unchanged. Part 2: the skipped
position's label value `labels_start_id + i + 1` never appears in the
resulting feature array (a gap in the used label ids), provided all labels
fit in `int32`. -/
theorem applyClustersFrom_skips_clusters_without_mentions
    (s : Int) (cs : List CorefCluster) (i n : Nat)
    (hi : i < cs.length)
    (hnone : (cs.getD i default).mentions = none)
    (hs0 : 0 ≤ s)
    (hfit : s + (cs.length : Int) < 2 ^ 31) :
    applyClustersFrom s cs 0 (List.replicate n 0)
      = applyClustersFrom s (cs.set i ⟨some []⟩) 0 (List.replicate n 0) ∧
    ∀ t, (applyClustersFrom s cs 0 (List.replicate n 0)).getD t 0 ≠ s + (i : Int) + 1 := by
  constructor
  · exact applyClustersFrom_set_empty_mentions s cs i 0 _ hi hnone
  · intro t
    rcases applyClustersFrom_getD_cases s cs 0 (List.replicate n 0) t with h | ⟨j, hj, hcov, hval⟩
    · rw [h]
      have hrep : (List.replicate n (0 : Int)).getD t 0 = 0 := by
        rw [List.getD_eq_getElem?_getD, List.getElem?_replicate]
        split <;> simp
      rw [hrep]
      omega
    · rw [hval]
      have hji : j ≠ i := by
        intro he
        rw [he, coversB_of_mentions_none hnone] at hcov
        exact Bool.false_ne_true hcov
      rw [Nat.zero_add, wrap32_eq_self (by omega) (by omega)]
      omega

/-- Witness for C10: a two-cluster list whose first cluster (position 0,
label 2) lacks mentions; the skip leaves the output unchanged and the value
2 never appears. -/
theorem applyClustersFrom_skips_clusters_without_mentions_witness :
    (0 : Nat) < ([⟨none⟩, ⟨some [⟨0, 1⟩]⟩] : List CorefCluster).length ∧
    (applyClustersFrom 1 [⟨none⟩, ⟨some [⟨0, 1⟩]⟩] 0 (List.replicate 2 0)
        = applyClustersFrom 1 ([⟨none⟩, ⟨some [⟨0, 1⟩]⟩].set 0 ⟨some []⟩) 0
            (List.replicate 2 0) ∧
      ∀ t, (applyClustersFrom 1 [⟨none⟩, ⟨some [⟨0, 1⟩]⟩] 0
          (List.replicate 2 0)).getD t 0 ≠ 1 + ((0 : Nat) : Int) + 1) :=
  ⟨by decide,
    applyClustersFrom_skips_clusters_without_mentions 1 [⟨none⟩, ⟨some [⟨0, 1⟩]⟩] 0 2
      (by decide) (by decide) (by decide) (by decide)⟩
